import Mathlib

/-!
Verification development for the Universus simulator's core game engine
(`src/models/Card.ts`, `src/models/Zone.ts`, `src/models/Player.ts`,
`src/game/GamePhases.ts`, `src/game/GameEngine.ts`) and the client's
check panel (`client/src/components/CheckPanel.tsx`).

Card instances are identified by natural-number instance ids; a zone is the
ordered list of the instance ids it holds, which models the JavaScript
arrays of object references (membership tests in the source use reference
equality, so distinct instances never collide). Mutable per-card runtime
state lives in a store `Nat -> CardState`, mirroring in-place mutation of
the card objects.
-/

set_option maxHeartbeats 1000000

namespace UVS

/-! ### Card model (src/models/Card.ts) -/

/-- Runtime state of one card instance together with the printed fields the
engine reads. The printed fields (`check`, `speed`, `damage`,
`baseDifficulty`) are read-only after construction; the remaining fields are
the mutable game state of `Card`. -/
structure CardState where
  check : Int
  speed : Int
  damage : Int
  baseDifficulty : Int
  currentDifficulty : Int
  progressiveDifficulty : Int
  committed : Bool
  deriving DecidableEq, Repr

/-- Card constructor: printed data, with the mutable state at its defaults
(`committed = false`, `progressiveDifficulty = 0`,
`currentDifficulty = baseDifficulty`). -/
def newCardState (check speed damage difficulty : Int) : CardState :=
  { check := check, speed := speed, damage := damage,
    baseDifficulty := difficulty, currentDifficulty := difficulty,
    progressiveDifficulty := 0, committed := false }

/-- Getter `Card.difficulty`: `currentDifficulty + progressiveDifficulty`. -/
def CardState.difficulty (c : CardState) : Int :=
  c.currentDifficulty + c.progressiveDifficulty

/-- Method `Card.reset()`. -/
def CardState.reset (c : CardState) : CardState :=
  { c with committed := false, progressiveDifficulty := 0,
           currentDifficulty := c.baseDifficulty }

/-- Method `Card.commit()`. -/
def CardState.commit (c : CardState) : CardState :=
  { c with committed := true }

/-- State of a `CharacterCard` (handSize, maxHealth, currentHealth). -/
structure CharacterState where
  handSize : Nat
  maxHealth : Int
  currentHealth : Int
  deriving DecidableEq, Repr

/-- Method `CharacterCard.isDefeated()`: `currentHealth <= 0`. -/
def CharacterState.isDefeated (c : CharacterState) : Bool :=
  c.currentHealth ≤ 0

/-! ### Zones (src/models/Zone.ts) -/

/-- Method `CardZone.add`: push to the end of the backing array. -/
def zoneAdd (l : List Nat) (c : Nat) : List Nat := l ++ [c]

/-- Method `CardZone.remove`: splice out the first occurrence, if present. -/
def zoneRemove (l : List Nat) (c : Nat) : List Nat := l.erase c

/-- Method `Deck.draw`: shift the first element (the top of the deck) off the
array, or report the empty deck. -/
def deckDraw (l : List Nat) : Option Nat × List Nat :=
  match l with
  | [] => (none, [])
  | c :: rest => (some c, rest)

/-- Method `Deck.drawMultiple`: repeated `draw()`, stopping early when the
deck runs out. Returns the drawn cards in draw order and the rest of the
deck. -/
def drawMultiple : Nat → List Nat → List Nat × List Nat
  | 0, l => ([], l)
  | _ + 1, [] => ([], [])
  | n + 1, c :: rest =>
    let r := drawMultiple n rest
    (c :: r.1, r.2)

/-- The double assignment swapping positions `i` and `j` inside
`Deck.shuffle`; indices outside the array leave it unchanged (never hit by
the shuffle loop, which stays in bounds). -/
def listSwap (l : List Nat) (i j : Nat) : List Nat :=
  match l.get? i, l.get? j with
  | some a, some b => (l.set i b).set j a
  | _, _ => l

/-- The Fisher-Yates loop of `Deck.shuffle`: for `i` from `length - 1` down
to `1`, swap position `i` with position `j = floor(random() * (i + 1))`.
The random draw at loop index `i` is modelled by `rand i % (i + 1)`, which
ranges over exactly the values `0 .. i` the source expression can produce. -/
def shuffleGo (rand : Nat → Nat) : List Nat → Nat → List Nat
  | l, 0 => l
  | l, i + 1 => shuffleGo rand (listSwap l (i + 1) (rand (i + 1) % (i + 2))) i

/-- Method `Deck.shuffle`, over an arbitrary source of random choices. -/
def deckShuffle (l : List Nat) (rand : Nat → Nat) : List Nat :=
  shuffleGo rand l (l.length - 1)

/-! ### Player (src/models/Player.ts) -/

/-- A player: id, optional character, the seven zones, and momentum. -/
structure Player where
  id : Nat
  character : Option CharacterState
  deck : List Nat
  hand : List Nat
  discard : List Nat
  cardPool : List Nat
  stagingArea : List Nat
  playArea : List Nat
  removed : List Nat
  momentum : Int
  deriving DecidableEq, Repr

/-- The `Player` constructor: empty zones, no character, momentum 0. -/
def freshPlayer (id : Nat) : Player :=
  { id := id, character := none, deck := [], hand := [], discard := [],
    cardPool := [], stagingArea := [], playArea := [], removed := [],
    momentum := 0 }

/-- JavaScript `x || d` for an optional integer `x`: both `undefined` and
`0` are falsy and fall through to the default. -/
def jsOrInt (x : Option Int) (d : Int) : Int :=
  match x with
  | none => d
  | some v => if v = 0 then d else v

/-- JavaScript `x || d` for an optional natural number. -/
def jsOrNat (x : Option Nat) (d : Nat) : Nat :=
  match x with
  | none => d
  | some v => if v = 0 then d else v

/-- Method `Player.getHealth`: `character?.currentHealth || 0`. -/
def Player.getHealth (p : Player) : Int :=
  jsOrInt (p.character.map (·.currentHealth)) 0

/-- Method `Player.getMaxHealth`: `character?.maxHealth || 0`. -/
def Player.getMaxHealth (p : Player) : Int :=
  jsOrInt (p.character.map (·.maxHealth)) 0

/-- Method `Player.getHandSize`: `character?.handSize || 6`. -/
def Player.getHandSize (p : Player) : Nat :=
  jsOrNat (p.character.map (·.handSize)) 6

/-- Method `Player.isDefeated`: `character?.isDefeated() || false`. -/
def Player.isDefeated (p : Player) : Bool :=
  match p.character with
  | none => false
  | some c => c.isDefeated

/-- Method `Player.drawCards`: `drawMultiple` from the deck, then add each
drawn card to the hand in draw order. -/
def Player.drawCards (p : Player) (count : Nat) : Player :=
  let r := drawMultiple count p.deck
  { p with deck := r.2, hand := p.hand ++ r.1 }

/-- Method `Player.drawToHandSize`: draw `Math.max(0, handSize - current)`
cards (truncated subtraction on naturals is exactly that maximum). -/
def Player.drawToHandSize (p : Player) : Player :=
  p.drawCards (p.getHandSize - p.hand.length)

/-- The forEach loop of `Player.discardHand`: iterate over a snapshot of the
hand, removing each card from the hand and unshifting it onto the discard
pile. Arguments: snapshot still to process, current hand, current discard. -/
def discardLoop : List Nat → List Nat → List Nat → List Nat × List Nat
  | [], hand, disc => (hand, disc)
  | c :: cs, hand, disc => discardLoop cs (hand.erase c) (c :: disc)

/-- Method `Player.discardHand`. -/
def Player.discardHand (p : Player) : Player :=
  let r := discardLoop p.hand p.hand p.discard
  { p with hand := r.1, discard := r.2 }

/-- Method `Player.setupGame`: push every card of the supplied list into the
deck, shuffle the deck, and reset momentum. (The `controllerId` assignment
is card bookkeeping that no modelled operation reads back.) -/
def Player.setupGame (p : Player) (deckCards : List Nat) (rand : Nat → Nat) :
    Player :=
  { p with deck := deckShuffle (p.deck ++ deckCards) rand, momentum := 0 }

/-! ### Turn and phase state machine (src/game/GamePhases.ts) -/

/-- The `GamePhase` enum. -/
inductive GamePhase where
  | review
  | ready
  | combat
  | endPhase
  deriving DecidableEq, Repr

/-- The `TurnStep` enum. -/
inductive TurnStep where
  | reviewStart
  | reviewDiscard
  | reviewDraw
  | readyStart
  | readyCards
  | readyMain
  | combatStart
  | combatDeclareAttack
  | combatEnhance
  | combatBlock
  | combatReveal
  | combatDamage
  | combatEnd
  | turnEnd
  deriving DecidableEq, Repr

/-- The scalar state of `TurnManager`. The source holds the active player
and opponent as object references to the engine's two players; here they are
held by player id (the engine's players have ids 1 and 2). -/
structure TurnManager where
  phase : GamePhase
  step : TurnStep
  turnNumber : Nat
  activeId : Nat
  opponentId : Nat
  deriving DecidableEq, Repr

/-- Method `TurnManager.startTurn`. -/
def TurnManager.startTurn (tm : TurnManager) : TurnManager :=
  { tm with turnNumber := tm.turnNumber + 1, phase := .review,
            step := .reviewStart }

/-- Method `TurnManager.endTurn`: mark the End phase and swap the active
player with the opponent. -/
def TurnManager.endTurn (tm : TurnManager) : TurnManager :=
  { tm with phase := .endPhase, step := .turnEnd,
            activeId := tm.opponentId, opponentId := tm.activeId }

/-- Method `TurnManager.advancePhase`. -/
def TurnManager.advancePhase (tm : TurnManager) : TurnManager :=
  match tm.phase with
  | .review => { tm with phase := .ready, step := .readyStart }
  | .ready => { tm with phase := .combat, step := .combatStart }
  | .combat => tm.endTurn
  | .endPhase => tm.startTurn

/-- The `AttackState` record held by `CombatManager`. -/
structure AttackState where
  attackerId : Nat
  defenderId : Nat
  attackCard : Nat
  enhancements : List Nat
  blockCard : Option Nat
  speed : Int
  damage : Int
  resolved : Bool
  deriving DecidableEq, Repr

/-! ### Check panel (client/src/components/CheckPanel.tsx) -/

/-- CheckPanel: `const baseCheckValue = revealedCheckCard?.check || 0`. -/
def baseCheckValue (revealed : Option CardState) : Int :=
  jsOrInt (revealed.map (·.check)) 0

/-- CheckPanel: total check value = base check value plus the
foundation bonus, each committed foundation contributing exactly 1. -/
def totalCheckValue (revealed : Option CardState)
    (foundationsCommitted : Int) : Int :=
  baseCheckValue revealed + foundationsCommitted

/-- CheckPanel: `checkPassed = totalCheckValue >= requiredDifficulty`. -/
def checkPassed (revealed : Option CardState)
    (foundationsCommitted requiredDifficulty : Int) : Bool :=
  totalCheckValue revealed foundationsCommitted ≥ requiredDifficulty

/-- CheckPanel: `foundationsNeeded = max(0, required - base)` when a check
card has been revealed, else 0. -/
def foundationsNeeded (revealed : Option CardState)
    (requiredDifficulty : Int) : Int :=
  match revealed with
  | some _ => max 0 (requiredDifficulty - baseCheckValue revealed)
  | none => 0

/-- CheckPanel: `canPassWithFoundations = revealedCheckCard &&
foundationsNeeded > 0 && foundationsNeeded <= maxFoundations`. -/
def canPassWithFoundations (revealed : Option CardState)
    (requiredDifficulty maxFoundations : Int) : Bool :=
  revealed.isSome && foundationsNeeded revealed requiredDifficulty > 0 &&
    foundationsNeeded revealed requiredDifficulty ≤ maxFoundations

/-- Result of the card-pool drop handler in
`client/src/components/PlayerArea.tsx`: the updated hand and card pool and
the `requiredDifficulty` the handler stores into the check state. -/
structure PoolDropResult where
  hand : List Nat
  cardPool : List Nat
  requiredDifficulty : Int
  deriving DecidableEq, Repr

/-- The card-pool drop handler (PlayerArea.tsx `onDrop`): when the dragged
card is in the hand, remove it from the hand, add it to the card pool, and
set the check state's `requiredDifficulty` to the dragged card's
`difficulty` getter. No card state is written anywhere in this flow. -/
def poolDrop (hand cardPool : List Nat) (cardSt : Nat → CardState)
    (dragged : Nat) : Option PoolDropResult :=
  if dragged ∈ hand then
    some { hand := hand.erase dragged, cardPool := cardPool ++ [dragged],
           requiredDifficulty := (cardSt dragged).difficulty }
  else none

/-! ### Game engine (src/game/GameEngine.ts) -/

/-- The `GameStatus` enum. -/
inductive GameStatus where
  | setup
  | inProgress
  | finished
  deriving DecidableEq, Repr

/-- The game engine's state: both players, the turn manager, status and
winner, the combat manager's current attack, and the store of per-card
runtime state (the card objects the TypeScript mutates in place). The
winner is recorded by player id. -/
structure GameEngine where
  player1 : Player
  player2 : Player
  turn : TurnManager
  status : GameStatus
  winner : Option Nat
  currentAttack : Option AttackState
  cardSt : Nat → CardState

/-- The `GameConfig` argument of the engine constructor. -/
structure GameConfig where
  startingPlayer : Nat
  deriving DecidableEq, Repr

/-- The `GameEngine` constructor: two fresh players (ids 1 and 2) and a
turn manager whose active player is `startingPlayer === 1 ? player1 :
player2`. The card store holds the constructed card instances. -/
def GameEngine.create (cfg : GameConfig) (cardSt : Nat → CardState) :
    GameEngine :=
  { player1 := freshPlayer 1
    player2 := freshPlayer 2
    turn := { phase := .review, step := .reviewStart, turnNumber := 0,
              activeId := if cfg.startingPlayer = 1 then 1 else 2,
              opponentId := if cfg.startingPlayer = 1 then 2 else 1 }
    status := .setup
    winner := none
    currentAttack := none
    cardSt := cardSt }

/-- Method `GameEngine.getPlayer`: `playerId === 1 ? player1 : player2`. -/
def GameEngine.getPlayer (g : GameEngine) (pid : Nat) : Player :=
  if pid = 1 then g.player1 else g.player2

/-- Writing back the player that `getPlayer` aliases in the source. -/
def GameEngine.setPlayer (g : GameEngine) (pid : Nat) (p : Player) :
    GameEngine :=
  if pid = 1 then { g with player1 := p } else { g with player2 := p }

/-- Method `GameEngine.startGame`: draw each player's opening hand, mark the
game in progress, and start the first turn. A second call throws in the
source before mutating anything; the thrown case is modelled as returning
the state unchanged. -/
def GameEngine.startGame (g : GameEngine) : GameEngine :=
  if g.status ≠ .setup then g
  else
    { g with player1 := g.player1.drawCards g.player1.getHandSize,
             player2 := g.player2.drawCards g.player2.getHandSize,
             status := .inProgress,
             turn := g.turn.startTurn }

/-- Method `GameEngine.playFoundation`: only during the Ready phase and only
when the card is in the player's hand; moves the card hand -> play area. -/
def GameEngine.playFoundation (g : GameEngine) (pid card : Nat) :
    GameEngine × Bool :=
  let p := g.getPlayer pid
  if g.turn.phase ≠ .ready then (g, false)
  else if card ∈ p.hand then
    (g.setPlayer pid
      { p with hand := p.hand.erase card, playArea := p.playArea ++ [card] },
     true)
  else (g, false)

/-- Method `GameEngine.playAsset`: same preconditions and movement as
`playFoundation` (the source bodies are identical). -/
def GameEngine.playAsset (g : GameEngine) (pid card : Nat) :
    GameEngine × Bool :=
  let p := g.getPlayer pid
  if g.turn.phase ≠ .ready then (g, false)
  else if card ∈ p.hand then
    (g.setPlayer pid
      { p with hand := p.hand.erase card, playArea := p.playArea ++ [card] },
     true)
  else (g, false)

/-- Method `GameEngine.declareAttack`: only during Combat and only when the
attack card is in the attacker's hand; moves it hand -> staging area and
opens the combat manager's attack slot. -/
def GameEngine.declareAttack (g : GameEngine) (attackerId card : Nat) :
    GameEngine × Bool :=
  let attacker := g.getPlayer attackerId
  if g.turn.phase ≠ .combat then (g, false)
  else if card ∈ attacker.hand then
    let g1 := g.setPlayer attackerId
      { attacker with hand := attacker.hand.erase card,
                      stagingArea := attacker.stagingArea ++ [card] }
    let atk : AttackState :=
      { attackerId := attackerId,
        defenderId := if attackerId = 1 then 2 else 1,
        attackCard := card, enhancements := [], blockCard := none,
        speed := (g.cardSt card).speed, damage := (g.cardSt card).damage,
        resolved := false }
    ({ g1 with currentAttack := some atk }, true)
  else (g, false)

/-- Method `CombatManager.hasActiveAttack`. -/
def hasActiveAttack (g : GameEngine) : Bool :=
  match g.currentAttack with
  | some a => !a.resolved
  | none => false

/-- Method `GameEngine.declareBlock`: only while an attack is open and the
block card is in the defender's hand; moves it hand -> staging area and
records it on the open attack. -/
def GameEngine.declareBlock (g : GameEngine) (defenderId card : Nat) :
    GameEngine × Bool :=
  let defender := g.getPlayer defenderId
  if !hasActiveAttack g then (g, false)
  else if card ∈ defender.hand then
    let g1 := g.setPlayer defenderId
      { defender with hand := defender.hand.erase card,
                      stagingArea := defender.stagingArea ++ [card] }
    ({ g1 with currentAttack :=
        g1.currentAttack.map (fun a => { a with blockCard := some card }) },
     true)
  else (g, false)

/-- The reveal loop of `GameEngine.performCheck`: while the running total is
below the difficulty and the deck is non-empty, draw the top deck card into
the card pool and add its printed check value to the total. Returns the
remaining deck, the card pool, and the final total. -/
def checkLoop (cardSt : Nat → CardState) (difficulty : Int) :
    List Nat → List Nat → Int → List Nat × List Nat × Int
  | [], pool, total => ([], pool, total)
  | c :: rest, pool, total =>
    if total < difficulty then
      checkLoop cardSt difficulty rest (pool ++ [c]) (total + (cardSt c).check)
    else (c :: rest, pool, total)

/-- The `{ success, total }` record returned by `performCheck`. -/
structure CheckResult where
  success : Bool
  total : Int
  deriving DecidableEq, Repr

/-- Method `GameEngine.performCheck`. -/
def GameEngine.performCheck (g : GameEngine) (pid : Nat) (difficulty : Int) :
    GameEngine × CheckResult :=
  let p := g.getPlayer pid
  let r := checkLoop g.cardSt difficulty p.deck p.cardPool 0
  (g.setPlayer pid { p with deck := r.1, cardPool := r.2.1 },
   { success := r.2.2 ≥ difficulty, total := r.2.2 })

/-- Method `GameEngine.checkWinConditions`: player 1 defeated is tested
first, then player 2 as an else-if. -/
def GameEngine.checkWinConditions (g : GameEngine) : GameEngine :=
  if g.player1.isDefeated then
    { g with status := .finished, winner := some 2 }
  else if g.player2.isDefeated then
    { g with status := .finished, winner := some 1 }
  else g

/-- Method `GameEngine.advancePhase`: delegation to the turn manager. -/
def GameEngine.advancePhaseE (g : GameEngine) : GameEngine :=
  { g with turn := g.turn.advancePhase }

/-- Method `GameEngine.endTurn`: delegate to the turn manager, then
re-evaluate win conditions. -/
def GameEngine.endTurnE (g : GameEngine) : GameEngine :=
  GameEngine.checkWinConditions { g with turn := g.turn.endTurn }

/-- Method `PlayArea.commitCard` applied through the engine's card store:
commit the card when it is in the given player's play area and not already
committed, otherwise change nothing. -/
def commitCardInPlayArea (g : GameEngine) (pid f : Nat) : GameEngine :=
  if f ∈ (g.getPlayer pid).playArea ∧ (g.cardSt f).committed = false then
    { g with cardSt := fun c => if c = f then (g.cardSt f).commit else g.cardSt c }
  else g

/-- The for-loop of `GameEngine.commitFoundations`: per card in sequence,
return false as soon as a listed foundation is not in the play area,
otherwise `commitCard` it (ignoring `commitCard`'s own result) and
continue. -/
def commitLoop (pid : Nat) : GameEngine → List Nat → GameEngine × Bool
  | g, [] => (g, true)
  | g, f :: fs =>
    if f ∈ (g.getPlayer pid).playArea then
      commitLoop pid (commitCardInPlayArea g pid f) fs
    else (g, false)

/-- Method `GameEngine.commitFoundations`. -/
def GameEngine.commitFoundations (g : GameEngine) (pid : Nat)
    (fs : List Nat) : GameEngine × Bool :=
  commitLoop pid g fs

/-- Applying a mutation to the player the turn manager's `activePlayer`
reference aliases (the engine's player 1 exactly when the active id is 1). -/
def updateActivePlayer (g : GameEngine) (f : Player → Player) : GameEngine :=
  if g.turn.activeId = 1 then { g with player1 := f g.player1 }
  else { g with player2 := f g.player2 }

/-- Method `TurnManager.processReviewPhase`: set the step markers, discard
the active player's entire hand, then draw the active player to hand
size, in that order. -/
def GameEngine.processReviewPhaseE (g : GameEngine) : GameEngine :=
  let g1 := { g with turn := { g.turn with phase := .review, step := .reviewStart } }
  let g2 := { g1 with turn := { g1.turn with step := .reviewDiscard } }
  let g3 := updateActivePlayer g2 Player.discardHand
  let g4 := { g3 with turn := { g3.turn with step := .reviewDraw } }
  updateActivePlayer g4 Player.drawToHandSize

/-- Method `TurnManager.processReadyPhase`: set the step markers and ready
(reset) every card in the active player's play area. -/
def GameEngine.processReadyPhaseE (g : GameEngine) : GameEngine :=
  let g1 := { g with turn := { g.turn with phase := .ready, step := .readyStart } }
  let g2 := { g1 with turn := { g1.turn with step := .readyCards } }
  let pa := (g2.getPlayer g2.turn.activeId).playArea
  let g3 := { g2 with cardSt := fun c => if c ∈ pa then (g2.cardSt c).reset else g2.cardSt c }
  { g3 with turn := { g3.turn with step := .readyMain } }

/-- Method `GameEngine.processTurn` (the async body runs synchronously). -/
def GameEngine.processTurn (g : GameEngine) : GameEngine :=
  match g.turn.phase with
  | .review => g.processReviewPhaseE.advancePhaseE
  | .ready => g.processReadyPhaseE
  | .combat => g
  | .endPhase =>
    let g1 := g.checkWinConditions
    if g1.status = .inProgress then g1.advancePhaseE else g1

/-! ### The engine's public operations as a transition system -/

/-- One invocation of a public Game Engine operation, with its inputs. -/
inductive Op where
  | startGame
  | playFoundation (pid card : Nat)
  | playAsset (pid card : Nat)
  | declareAttack (pid card : Nat)
  | declareBlock (pid card : Nat)
  | performCheck (pid : Nat) (difficulty : Int)
  | commitFoundations (pid : Nat) (cards : List Nat)
  | advancePhase
  | endTurn
  | processTurn
  deriving DecidableEq, Repr

/-- The state reached by one public operation (return values discarded). -/
def applyOp (g : GameEngine) : Op → GameEngine
  | .startGame => g.startGame
  | .playFoundation pid card => (g.playFoundation pid card).1
  | .playAsset pid card => (g.playAsset pid card).1
  | .declareAttack pid card => (g.declareAttack pid card).1
  | .declareBlock pid card => (g.declareBlock pid card).1
  | .performCheck pid difficulty => (g.performCheck pid difficulty).1
  | .commitFoundations pid cards => (g.commitFoundations pid cards).1
  | .advancePhase => g.advancePhaseE
  | .endTurn => g.endTurnE
  | .processTurn => g.processTurn

/-- Running a sequence of public operations. -/
def runOps (g : GameEngine) : List Op → GameEngine
  | [] => g
  | op :: ops => runOps (applyOp g op) ops

/-- A freshly constructed and set-up game: the engine constructor followed
by `setupGame` on each player with its deck list and randomness source. -/
def initGame (cfg : GameConfig) (cardSt : Nat → CardState)
    (deck1 deck2 : List Nat) (rand1 rand2 : Nat → Nat) : GameEngine :=
  let g := GameEngine.create cfg cardSt
  { g with player1 := g.player1.setupGame deck1 rand1,
           player2 := g.player2.setupGame deck2 rand2 }

/-! ### Derived notions used by the verification -/

/-- Sum of the printed check values of a list of cards. -/
def sumChecks (cardSt : Nat → CardState) (l : List Nat) : Int :=
  (l.map (fun c => (cardSt c).check)).sum

/-- The multiset of instance ids over a player's seven zones. -/
def Player.ms (p : Player) : Multiset Nat :=
  (p.deck : Multiset Nat) + (p.hand : Multiset Nat) + (p.discard : Multiset Nat)
    + (p.cardPool : Multiset Nat) + (p.stagingArea : Multiset Nat)
    + (p.playArea : Multiset Nat) + (p.removed : Multiset Nat)

/-- The multiset of instance ids over every zone of both players. -/
def engineMS (g : GameEngine) : Multiset Nat :=
  g.player1.ms + g.player2.ms

/-- The seven zone lists of a player. -/
def playerZones (p : Player) : List (List Nat) :=
  [p.deck, p.hand, p.discard, p.cardPool, p.stagingArea, p.playArea, p.removed]

/-- No zone of either player holds the same card instance twice. -/
def ZonesNodup (g : GameEngine) : Prop :=
  (∀ z ∈ playerZones g.player1, z.Nodup) ∧ ∀ z ∈ playerZones g.player2, z.Nodup

/-! ### Concrete sample states used by witnesses and counterexamples -/

/-- A card store where every instance is a freshly constructed card of base
difficulty 4 (check, speed and damage 0). -/
def c1CardSt : Nat → CardState := fun _ => newCardState 0 0 0 4

/-- A revealed check card with printed check value 3. -/
def c3Card : CardState := newCardState 3 0 0 0

/-- A concrete turn-manager state sitting in the Combat phase. -/
def tmCombat : TurnManager :=
  { phase := .combat, step := .combatStart, turnNumber := 3,
    activeId := 1, opponentId := 2 }

/-- A concrete engine state whose player 1 play area holds card 7, with
every card in the store already committed. -/
def c6Engine : GameEngine :=
  { player1 := { (freshPlayer 1) with playArea := [7] }
    player2 := freshPlayer 2
    turn := { phase := .ready, step := .readyMain, turnNumber := 1,
              activeId := 1, opponentId := 2 }
    status := .inProgress
    winner := none
    currentAttack := none
    cardSt := fun _ => (newCardState 0 0 0 0).commit }

/-- A concrete engine state whose player 1 play area holds cards 3 and 4,
with no card committed. -/
def c6bEngine : GameEngine :=
  { player1 := { (freshPlayer 1) with playArea := [3, 4] }
    player2 := freshPlayer 2
    turn := { phase := .ready, step := .readyMain, turnNumber := 1,
              activeId := 1, opponentId := 2 }
    status := .inProgress
    winner := none
    currentAttack := none
    cardSt := fun _ => newCardState 0 0 0 0 }

/-- Player 1 for the concrete review-phase state: hand size 2, two cards in
hand, three in the deck. -/
def c5Player : Player :=
  { (freshPlayer 1) with
    character := some ⟨2, 20, 20⟩, hand := [0, 1], deck := [2, 3, 4] }

/-- A concrete engine state whose player 1 has hand size 2, two cards in
hand and three in the deck. -/
def c5Engine : GameEngine :=
  { player1 := c5Player
    player2 := freshPlayer 2
    turn := { phase := .review, step := .reviewStart, turnNumber := 1,
              activeId := 1, opponentId := 2 }
    status := .inProgress
    winner := none
    currentAttack := none
    cardSt := fun _ => newCardState 0 0 0 0 }

/-- A concrete engine state in which both characters are at or below zero
health. -/
def c7Engine : GameEngine :=
  { player1 := { (freshPlayer 1) with character := some ⟨6, 20, 0⟩ }
    player2 := { (freshPlayer 2) with character := some ⟨6, 20, -2⟩ }
    turn := { phase := .combat, step := .combatEnd, turnNumber := 2,
              activeId := 1, opponentId := 2 }
    status := .inProgress
    winner := none
    currentAttack := none
    cardSt := fun _ => newCardState 0 0 0 0 }

/-- A concrete engine state still in setup, with characterless players and
seven-card decks. -/
def c10Engine : GameEngine :=
  { player1 := { (freshPlayer 1) with deck := [0, 1, 2, 3, 4, 5, 6] }
    player2 := { (freshPlayer 2) with deck := [7, 8, 9, 10, 11, 12, 13] }
    turn := { phase := .review, step := .reviewStart, turnNumber := 0,
              activeId := 1, opponentId := 2 }
    status := .setup
    winner := none
    currentAttack := none
    cardSt := fun _ => newCardState 0 0 0 0 }

/-- A freshly set-up concrete game with distinct card instances. -/
def c9Start : GameEngine :=
  initGame { startingPlayer := 1 } (fun _ => newCardState 1 0 0 0)
    [0, 1, 2, 3, 4, 5, 6] [7, 8, 9, 10, 11, 12, 13] id id

/-- A concrete sequence of public engine operations. -/
def c9Ops : List Op :=
  [Op.startGame, Op.processTurn, Op.playFoundation 1 0, Op.advancePhase,
   Op.performCheck 2 3, Op.commitFoundations 1 [0], Op.advancePhase,
   Op.processTurn, Op.endTurn]

/-! ### Lemmas about the basic zone operations -/

lemma drawMultiple_eq_take_drop : ∀ (n : Nat) (l : List Nat),
    drawMultiple n l = (l.take n, l.drop n)
  | 0, _ => by simp [drawMultiple]
  | _ + 1, [] => by simp [drawMultiple]
  | n + 1, c :: rest => by
    simp [drawMultiple, drawMultiple_eq_take_drop n rest]

lemma discardLoop_self : ∀ (l d : List Nat),
    discardLoop l l d = ([], l.reverse ++ d)
  | [], d => by simp [discardLoop]
  | c :: cs, d => by
    simp [discardLoop, List.erase_cons_head, discardLoop_self cs (c :: d)]

lemma Player.discardHand_eq (p : Player) :
    p.discardHand = { p with hand := [], discard := p.hand.reverse ++ p.discard } := by
  simp [Player.discardHand, discardLoop_self]

lemma Player.drawCards_eq (p : Player) (n : Nat) :
    p.drawCards n = { p with deck := p.deck.drop n, hand := p.hand ++ p.deck.take n } := by
  simp [Player.drawCards, drawMultiple_eq_take_drop]

@[simp] lemma sumChecks_nil (cardSt : Nat → CardState) :
    sumChecks cardSt [] = 0 := rfl

@[simp] lemma sumChecks_cons (cardSt : Nat → CardState) (c : Nat) (l : List Nat) :
    sumChecks cardSt (c :: l) = (cardSt c).check + sumChecks cardSt l := by
  simp [sumChecks]

/-- Full characterisation of the reveal loop of `performCheck`: some count
`k` of cards is drawn off the top of the deck into the pool; the total grows
by their check sum; the loop drew another card exactly while the running sum
was still below the difficulty, and it stopped because the sum reached the
difficulty or the deck ran out. -/
lemma checkLoop_spec (cardSt : Nat → CardState) (D : Int) (deck : List Nat) :
    ∀ (pool : List Nat) (total : Int),
    ∃ k, k ≤ deck.length ∧
      checkLoop cardSt D deck pool total =
        (deck.drop k, pool ++ deck.take k,
         total + sumChecks cardSt (deck.take k)) ∧
      (∀ j < k, total + sumChecks cardSt (deck.take j) < D) ∧
      (D ≤ total + sumChecks cardSt (deck.take k) ∨ k = deck.length) := by
  induction deck with
  | nil =>
    intro pool total
    exact ⟨0, by simp [checkLoop]⟩
  | cons c rest ih =>
    intro pool total
    by_cases h : total < D
    · obtain ⟨k, hk, heq, hlt, hstop⟩ := ih (pool ++ [c]) (total + (cardSt c).check)
      refine ⟨k + 1, by simpa using hk, ?_, ?_, ?_⟩
      · simp [checkLoop, if_pos h, heq, List.append_assoc, add_assoc]
      · intro j hj
        match j with
        | 0 => simpa using h
        | j' + 1 =>
          have := hlt j' (by omega)
          simp only [List.take_succ_cons, sumChecks_cons]
          omega
      · rcases hstop with h1 | h1
        · left
          simp only [List.take_succ_cons, sumChecks_cons]
          omega
        · right
          simp [h1]
    · refine ⟨0, by simp, ?_, by omega, Or.inl (by simpa using not_lt.mp h)⟩
      simp [checkLoop, if_neg h]

/-! ### The shuffle is a permutation -/

lemma cons_set_perm : ∀ (l : List Nat) (k x b : Nat),
    l.get? k = some b → (b :: l.set k x).Perm (x :: l)
  | [], _, _, _ => by simp
  | a :: t, 0, x, b => by
    intro h
    obtain rfl : a = b := by simpa using h
    simpa [List.set] using List.Perm.swap x a t
  | a :: t, k + 1, x, b => by
    intro h
    have ih := cons_set_perm t k x b (by simpa using h)
    have h1 : b :: (a :: t).set (k + 1) x = b :: a :: t.set k x := by
      simp [List.set]
    rw [h1]
    exact ((List.Perm.swap a b _).trans (ih.cons a)).trans (List.Perm.swap x a t)

lemma set_set_perm (l : List Nat) :
    ∀ (i j a b : Nat), l.get? i = some a → l.get? j = some b →
    ((l.set i b).set j a).Perm l := by
  induction l with
  | nil => intro i j a b hi _; simp at hi
  | cons c t ih =>
    intro i j a b hi hj
    cases i with
    | zero =>
      cases j with
      | zero =>
        obtain rfl : a = c := by simpa using hi.symm
        obtain rfl : b = a := by simpa using hj.symm
        simp [List.set]
      | succ k =>
        obtain rfl : a = c := by simpa using hi.symm
        have hj' : t.get? k = some b := by simpa using hj
        simpa [List.set] using cons_set_perm t k a b hj'
    | succ m =>
      cases j with
      | zero =>
        obtain rfl : b = c := by simpa using hj.symm
        have hi' : t.get? m = some a := by simpa using hi
        simpa [List.set] using cons_set_perm t m b a hi'
      | succ k =>
        have hi' : t.get? m = some a := by simpa using hi
        have hj' : t.get? k = some b := by simpa using hj
        simpa [List.set] using (ih m k a b hi' hj').cons c

lemma listSwap_perm (l : List Nat) (i j : Nat) : (listSwap l i j).Perm l := by
  unfold listSwap
  split
  · next a b hi hj => exact set_set_perm l i j a b hi hj
  · exact List.Perm.refl l

lemma shuffleGo_perm (rand : Nat → Nat) :
    ∀ (i : Nat) (l : List Nat), (shuffleGo rand l i).Perm l := by
  intro i
  induction i with
  | zero => intro l; exact List.Perm.refl l
  | succ n ih =>
    intro l
    exact (ih _).trans (listSwap_perm l (n + 1) (rand (n + 1) % (n + 2)))

lemma deckShuffle_perm (l : List Nat) (rand : Nat → Nat) :
    (deckShuffle l rand).Perm l :=
  shuffleGo_perm rand (l.length - 1) l

/-! ### Multiset of all card instances owned by a player / the engine -/

lemma coe_erase_append (src dst : List Nat) (c : Nat) (h : c ∈ src) :
    (↑(src.erase c) : Multiset Nat) + ↑(dst ++ [c]) = ↑src + ↑dst := by
  have h1 : (src : Multiset Nat) = c ::ₘ ↑(src.erase c) := by
    rw [Multiset.cons_coe, Multiset.coe_eq_coe]
    exact List.perm_cons_erase h
  rw [h1, ← Multiset.coe_add, Multiset.coe_singleton, ← Multiset.singleton_add]
  abel

lemma ms_move_hand_playArea (p : Player) (c : Nat) (h : c ∈ p.hand) :
    Player.ms { p with hand := p.hand.erase c,
                       playArea := p.playArea ++ [c] } = p.ms := by
  have key := coe_erase_append p.hand p.playArea c h
  simp only [Player.ms]
  calc (p.deck : Multiset Nat) + ↑(p.hand.erase c) + ↑p.discard + ↑p.cardPool
        + ↑p.stagingArea + ↑(p.playArea ++ [c]) + ↑p.removed
      = (↑(p.hand.erase c) + ↑(p.playArea ++ [c]))
        + ((p.deck : Multiset Nat) + ↑p.discard + ↑p.cardPool + ↑p.stagingArea
            + ↑p.removed) := by abel
    _ = ((p.hand : Multiset Nat) + ↑p.playArea)
        + ((p.deck : Multiset Nat) + ↑p.discard + ↑p.cardPool + ↑p.stagingArea
            + ↑p.removed) := by rw [key]
    _ = (p.deck : Multiset Nat) + ↑p.hand + ↑p.discard + ↑p.cardPool
        + ↑p.stagingArea + ↑p.playArea + ↑p.removed := by abel

lemma ms_move_hand_stagingArea (p : Player) (c : Nat) (h : c ∈ p.hand) :
    Player.ms { p with hand := p.hand.erase c,
                       stagingArea := p.stagingArea ++ [c] } = p.ms := by
  have key := coe_erase_append p.hand p.stagingArea c h
  simp only [Player.ms]
  calc (p.deck : Multiset Nat) + ↑(p.hand.erase c) + ↑p.discard + ↑p.cardPool
        + ↑(p.stagingArea ++ [c]) + ↑p.playArea + ↑p.removed
      = (↑(p.hand.erase c) + ↑(p.stagingArea ++ [c]))
        + ((p.deck : Multiset Nat) + ↑p.discard + ↑p.cardPool + ↑p.playArea
            + ↑p.removed) := by abel
    _ = ((p.hand : Multiset Nat) + ↑p.stagingArea)
        + ((p.deck : Multiset Nat) + ↑p.discard + ↑p.cardPool + ↑p.playArea
            + ↑p.removed) := by rw [key]
    _ = (p.deck : Multiset Nat) + ↑p.hand + ↑p.discard + ↑p.cardPool
        + ↑p.stagingArea + ↑p.playArea + ↑p.removed := by abel

lemma coe_take_drop (l : List Nat) (n : Nat) :
    (↑(l.drop n) : Multiset Nat) + ↑(l.take n) = ↑l := by
  rw [add_comm, Multiset.coe_add, List.take_append_drop]

lemma ms_drawCards (p : Player) (n : Nat) : (p.drawCards n).ms = p.ms := by
  rw [Player.drawCards_eq]
  have key := coe_take_drop p.deck n
  simp only [Player.ms]
  calc (↑(p.deck.drop n) : Multiset Nat) + ↑(p.hand ++ p.deck.take n) + ↑p.discard
        + ↑p.cardPool + ↑p.stagingArea + ↑p.playArea + ↑p.removed
      = (↑(p.deck.drop n) + ↑(p.deck.take n))
        + ((p.hand : Multiset Nat) + ↑p.discard + ↑p.cardPool + ↑p.stagingArea
            + ↑p.playArea + ↑p.removed) := by
        rw [← Multiset.coe_add (p.hand) (p.deck.take n)]
        abel
    _ = (p.deck : Multiset Nat)
        + ((p.hand : Multiset Nat) + ↑p.discard + ↑p.cardPool + ↑p.stagingArea
            + ↑p.playArea + ↑p.removed) := by rw [key]
    _ = (p.deck : Multiset Nat) + ↑p.hand + ↑p.discard + ↑p.cardPool
        + ↑p.stagingArea + ↑p.playArea + ↑p.removed := by abel

lemma ms_drawToHandSize (p : Player) : p.drawToHandSize.ms = p.ms :=
  ms_drawCards p _

lemma ms_discardHand (p : Player) : p.discardHand.ms = p.ms := by
  rw [Player.discardHand_eq]
  simp only [Player.ms]
  have key : (↑(p.hand.reverse ++ p.discard) : Multiset Nat) = ↑p.hand + ↑p.discard := by
    rw [← Multiset.coe_add, Multiset.coe_reverse]
  rw [key]
  simp only [Multiset.coe_nil]
  abel

/-! ### Every public engine operation preserves the card multiset -/

lemma engineMS_setPlayer (g : GameEngine) (pid : Nat) (p' : Player)
    (h : p'.ms = (g.getPlayer pid).ms) :
    engineMS (g.setPlayer pid p') = engineMS g := by
  unfold GameEngine.getPlayer at h
  unfold engineMS GameEngine.setPlayer
  by_cases hp : pid = 1 <;> simp [hp] at h ⊢ <;> rw [h]

lemma engineMS_updateActive (g : GameEngine) (f : Player → Player)
    (h : ∀ p, (f p).ms = p.ms) :
    engineMS (updateActivePlayer g f) = engineMS g := by
  unfold engineMS updateActivePlayer
  by_cases hp : g.turn.activeId = 1 <;> simp [hp, h]

lemma engineMS_startGame (g : GameEngine) :
    engineMS g.startGame = engineMS g := by
  unfold GameEngine.startGame
  split
  · rfl
  · simp [engineMS, ms_drawCards]

lemma engineMS_playFoundation (g : GameEngine) (pid card : Nat) :
    engineMS (g.playFoundation pid card).1 = engineMS g := by
  unfold GameEngine.playFoundation
  split
  · rfl
  · dsimp only
    split
    · next hmem =>
      exact engineMS_setPlayer g pid _ (ms_move_hand_playArea _ card hmem)
    · rfl

lemma engineMS_playAsset (g : GameEngine) (pid card : Nat) :
    engineMS (g.playAsset pid card).1 = engineMS g := by
  unfold GameEngine.playAsset
  split
  · rfl
  · dsimp only
    split
    · next hmem =>
      exact engineMS_setPlayer g pid _ (ms_move_hand_playArea _ card hmem)
    · rfl

lemma engineMS_declareAttack (g : GameEngine) (pid card : Nat) :
    engineMS (g.declareAttack pid card).1 = engineMS g := by
  unfold GameEngine.declareAttack
  split
  · rfl
  · dsimp only
    split
    · next hmem =>
      exact engineMS_setPlayer g pid _ (ms_move_hand_stagingArea _ card hmem)
    · rfl

lemma engineMS_declareBlock (g : GameEngine) (pid card : Nat) :
    engineMS (g.declareBlock pid card).1 = engineMS g := by
  unfold GameEngine.declareBlock
  split
  · rfl
  · dsimp only
    split
    · next hmem =>
      exact engineMS_setPlayer g pid _ (ms_move_hand_stagingArea _ card hmem)
    · rfl

lemma ms_performCheck_player (p : Player) (cardSt : Nat → CardState) (D : Int) :
    Player.ms { p with deck := (checkLoop cardSt D p.deck p.cardPool 0).1,
                       cardPool := (checkLoop cardSt D p.deck p.cardPool 0).2.1 }
      = p.ms := by
  obtain ⟨k, -, heq, -, -⟩ := checkLoop_spec cardSt D p.deck p.cardPool 0
  rw [heq]
  have key : (↑(p.deck.drop k) : Multiset Nat) + ↑(p.cardPool ++ p.deck.take k)
      = ↑p.deck + ↑p.cardPool := by
    rw [← Multiset.coe_add (p.cardPool)]
    have h2 := coe_take_drop p.deck k
    calc (↑(p.deck.drop k) : Multiset Nat) + (↑p.cardPool + ↑(p.deck.take k))
        = (↑(p.deck.drop k) + ↑(p.deck.take k)) + (p.cardPool : Multiset Nat) := by abel
      _ = (p.deck : Multiset Nat) + ↑p.cardPool := by rw [h2]
  simp only [Player.ms]
  calc (↑(p.deck.drop k) : Multiset Nat) + ↑p.hand + ↑p.discard
        + ↑(p.cardPool ++ p.deck.take k) + ↑p.stagingArea + ↑p.playArea + ↑p.removed
      = (↑(p.deck.drop k) + ↑(p.cardPool ++ p.deck.take k))
        + ((p.hand : Multiset Nat) + ↑p.discard + ↑p.stagingArea + ↑p.playArea
            + ↑p.removed) := by abel
    _ = ((p.deck : Multiset Nat) + ↑p.cardPool)
        + ((p.hand : Multiset Nat) + ↑p.discard + ↑p.stagingArea + ↑p.playArea
            + ↑p.removed) := by rw [key]
    _ = (p.deck : Multiset Nat) + ↑p.hand + ↑p.discard + ↑p.cardPool
        + ↑p.stagingArea + ↑p.playArea + ↑p.removed := by abel

lemma engineMS_performCheck (g : GameEngine) (pid : Nat) (D : Int) :
    engineMS (g.performCheck pid D).1 = engineMS g := by
  unfold GameEngine.performCheck
  exact engineMS_setPlayer g pid _ (ms_performCheck_player _ g.cardSt D)

lemma commitCard_players (g : GameEngine) (pid f : Nat) :
    (commitCardInPlayArea g pid f).player1 = g.player1 ∧
    (commitCardInPlayArea g pid f).player2 = g.player2 := by
  unfold commitCardInPlayArea
  split <;> exact ⟨rfl, rfl⟩

lemma commitLoop_players (pid : Nat) :
    ∀ (fs : List Nat) (g : GameEngine),
    (commitLoop pid g fs).1.player1 = g.player1 ∧
    (commitLoop pid g fs).1.player2 = g.player2
  | [], g => ⟨rfl, rfl⟩
  | f :: fs, g => by
    unfold commitLoop
    split
    · have h1 := commitCard_players g pid f
      have h2 := commitLoop_players pid fs (commitCardInPlayArea g pid f)
      exact ⟨h2.1.trans h1.1, h2.2.trans h1.2⟩
    · exact ⟨rfl, rfl⟩

lemma engineMS_commitFoundations (g : GameEngine) (pid : Nat) (fs : List Nat) :
    engineMS (g.commitFoundations pid fs).1 = engineMS g := by
  have h := commitLoop_players pid fs g
  unfold GameEngine.commitFoundations
  unfold engineMS
  rw [h.1, h.2]

lemma engineMS_checkWin (g : GameEngine) :
    engineMS g.checkWinConditions = engineMS g := by
  unfold GameEngine.checkWinConditions
  split
  · rfl
  · split <;> rfl

lemma engineMS_processReview (g : GameEngine) :
    engineMS g.processReviewPhaseE = engineMS g := by
  unfold GameEngine.processReviewPhaseE
  have h1 := engineMS_updateActive
    { g with turn := { g.turn with phase := .review, step := .reviewDiscard } }
    Player.discardHand (fun p => ms_discardHand p)
  have h2 := engineMS_updateActive
    (updateActivePlayer
      { g with turn := { g.turn with phase := .review, step := .reviewDiscard } }
      Player.discardHand)
  simp only [engineMS] at *
  unfold updateActivePlayer at *
  by_cases hp : g.turn.activeId = 1 <;>
    simp [hp, ms_discardHand, ms_drawToHandSize]

lemma engineMS_processReady (g : GameEngine) :
    engineMS g.processReadyPhaseE = engineMS g := rfl

lemma engineMS_processTurn (g : GameEngine) :
    engineMS g.processTurn = engineMS g := by
  unfold GameEngine.processTurn
  split
  · exact engineMS_processReview g
  · exact engineMS_processReady g
  · rfl
  · dsimp only
    split
    · exact engineMS_checkWin g
    · exact engineMS_checkWin g

lemma engineMS_applyOp (g : GameEngine) (op : Op) :
    engineMS (applyOp g op) = engineMS g := by
  cases op with
  | startGame => exact engineMS_startGame g
  | playFoundation pid card => exact engineMS_playFoundation g pid card
  | playAsset pid card => exact engineMS_playAsset g pid card
  | declareAttack pid card => exact engineMS_declareAttack g pid card
  | declareBlock pid card => exact engineMS_declareBlock g pid card
  | performCheck pid d => exact engineMS_performCheck g pid d
  | commitFoundations pid cards => exact engineMS_commitFoundations g pid cards
  | advancePhase => rfl
  | endTurn => exact engineMS_checkWin _
  | processTurn => exact engineMS_processTurn g

lemma engineMS_runOps : ∀ (ops : List Op) (g : GameEngine),
    engineMS (runOps g ops) = engineMS g
  | [], _ => rfl
  | op :: ops, g => by
    unfold runOps
    exact (engineMS_runOps ops (applyOp g op)).trans (engineMS_applyOp g op)

/-! ### From the engine multiset to per-zone distinctness -/

lemma playerZones_nodup (p : Player) (h : p.ms.Nodup) :
    ∀ z ∈ playerZones p, z.Nodup := by
  simp only [Player.ms] at h
  have h1 := Multiset.nodup_add.mp h
  have h2 := Multiset.nodup_add.mp h1.1
  have h3 := Multiset.nodup_add.mp h2.1
  have h4 := Multiset.nodup_add.mp h3.1
  have h5 := Multiset.nodup_add.mp h4.1
  have h6 := Multiset.nodup_add.mp h5.1
  intro z hz
  simp only [playerZones, List.mem_cons, List.not_mem_nil, or_false] at hz
  rcases hz with rfl | rfl | rfl | rfl | rfl | rfl | rfl
  · exact Multiset.coe_nodup.mp h6.1
  · exact Multiset.coe_nodup.mp h6.2.1
  · exact Multiset.coe_nodup.mp h5.2.1
  · exact Multiset.coe_nodup.mp h4.2.1
  · exact Multiset.coe_nodup.mp h3.2.1
  · exact Multiset.coe_nodup.mp h2.2.1
  · exact Multiset.coe_nodup.mp h1.2.1

lemma engine_zones_nodup (g : GameEngine) (h : (engineMS g).Nodup) :
    ZonesNodup g := by
  unfold engineMS at h
  exact ⟨playerZones_nodup _ (Multiset.nodup_add.mp h).1,
         playerZones_nodup _ (Multiset.nodup_add.mp h).2.1⟩

lemma engineMS_initGame (cfg : GameConfig) (cardSt : Nat → CardState)
    (deck1 deck2 : List Nat) (rand1 rand2 : Nat → Nat) :
    engineMS (initGame cfg cardSt deck1 deck2 rand1 rand2)
      = ↑deck1 + ↑deck2 := by
  have h1 : ∀ (l : List Nat) (r : Nat → Nat),
      (↑(deckShuffle ([] ++ l) r) : Multiset Nat) = ↑l := by
    intro l r
    rw [List.nil_append, Multiset.coe_eq_coe]
    exact deckShuffle_perm l r
  simp [engineMS, initGame, GameEngine.create, Player.setupGame, freshPlayer,
    Player.ms, h1]
  exact List.Perm.append (deckShuffle_perm deck1 rand1)
    (deckShuffle_perm deck2 rand2)

/-! ### The claims -/

/-- C4: `advancePhase()` follows the transition table. Review to Ready and
Ready to Combat change only the phase and step; from Combat it performs
`endTurn`, which swaps the active player with the opponent and sets the
phase to End; from End it performs `startTurn`, which increments the turn
counter by one and resets the phase to Review. -/
theorem advancePhase_transition_table (tm : TurnManager) :
    (tm.phase = .review →
      tm.advancePhase = { tm with phase := .ready, step := .readyStart }) ∧
    (tm.phase = .ready →
      tm.advancePhase = { tm with phase := .combat, step := .combatStart }) ∧
    (tm.phase = .combat →
      tm.advancePhase = tm.endTurn ∧
      tm.endTurn = { tm with phase := .endPhase, step := .turnEnd,
                             activeId := tm.opponentId,
                             opponentId := tm.activeId }) ∧
    (tm.phase = .endPhase →
      tm.advancePhase = tm.startTurn ∧
      tm.startTurn = { tm with turnNumber := tm.turnNumber + 1,
                               phase := .review, step := .reviewStart }) := by
  obtain ⟨ph, st, n, a, o⟩ := tm
  refine ⟨?_, ?_, ?_, ?_⟩ <;> intro h <;>
    simp_all [TurnManager.advancePhase, TurnManager.endTurn,
      TurnManager.startTurn]

/-- Witness for C4 at a concrete Combat-phase state. -/
theorem advancePhase_transition_table_witness :
    tmCombat.advancePhase = { phase := .endPhase, step := .turnEnd,
                              turnNumber := 3, activeId := 2,
                              opponentId := 1 } := by
  have h := (advancePhase_transition_table tmCombat).2.2.1 rfl
  rw [h.1, h.2]
  rfl

/-- C8: `Deck.shuffle()` is a permutation: the multiset of card ids in the
deck before the shuffle equals the multiset after, for every deck size
(including 0 and 1) and every sequence of random choices. -/
theorem deckShuffle_multiset_eq (l : List Nat) (rand : Nat → Nat) :
    (↑(deckShuffle l rand) : Multiset Nat) = ↑l :=
  Multiset.coe_eq_coe.mpr (deckShuffle_perm l rand)

/-- C9: in every game state reachable from a fresh `setupGame` via the Game
Engine's public operations, no zone contains the same card instance twice
(the set-up deck lists hold pairwise-distinct card instances). -/
theorem reachable_zones_nodup (cfg : GameConfig) (cardSt : Nat → CardState)
    (deck1 deck2 : List Nat) (rand1 rand2 : Nat → Nat) (ops : List Op)
    (h : (deck1 ++ deck2).Nodup) :
    ZonesNodup (runOps (initGame cfg cardSt deck1 deck2 rand1 rand2) ops) := by
  apply engine_zones_nodup
  rw [engineMS_runOps, engineMS_initGame, Multiset.coe_add]
  exact Multiset.coe_nodup.mpr h

/-- Witness for C9: a concrete set-up game and operation sequence. -/
theorem reachable_zones_nodup_witness :
    ZonesNodup (runOps c9Start c9Ops) :=
  reachable_zones_nodup { startingPlayer := 1 } (fun _ => newCardState 1 0 0 0)
    [0, 1, 2, 3, 4, 5, 6] [7, 8, 9, 10, 11, 12, 13] id id c9Ops (by decide)

/-- C2: `performCheck(playerId, difficulty)` removes some number `k` of
cards from the top of that player's deck into that player's card pool in
order; `total` is the sum of their printed check values; another card was
drawn exactly while the running sum was below the difficulty (and the deck
non-empty); `success` is true iff the final sum reached the difficulty; and
every card not revealed remains in the deck in order. -/
theorem performCheck_batch_reveal (g : GameEngine) (pid : Nat) (D : Int) :
    ∃ k ≤ (g.getPlayer pid).deck.length,
      (g.performCheck pid D).1 =
        g.setPlayer pid
          { (g.getPlayer pid) with
            deck := (g.getPlayer pid).deck.drop k,
            cardPool := (g.getPlayer pid).cardPool ++
              (g.getPlayer pid).deck.take k } ∧
      (g.performCheck pid D).2.total =
        sumChecks g.cardSt ((g.getPlayer pid).deck.take k) ∧
      ((g.performCheck pid D).2.success = true ↔
        D ≤ (g.performCheck pid D).2.total) ∧
      (∀ j < k, sumChecks g.cardSt ((g.getPlayer pid).deck.take j) < D) ∧
      (D ≤ sumChecks g.cardSt ((g.getPlayer pid).deck.take k) ∨
        k = (g.getPlayer pid).deck.length) := by
  obtain ⟨k, hk, heq, hlt, hstop⟩ :=
    checkLoop_spec g.cardSt D (g.getPlayer pid).deck (g.getPlayer pid).cardPool 0
  refine ⟨k, hk, ?_, ?_, ?_, ?_, ?_⟩
  · unfold GameEngine.performCheck
    dsimp only
    rw [heq]
  · unfold GameEngine.performCheck
    dsimp only
    rw [heq]
    simp
  · unfold GameEngine.performCheck
    dsimp only
    rw [heq]
    simp
  · intro j hj
    simpa using hlt j hj
  · rcases hstop with h | h
    · left; simpa using h
    · right; exact h

/-- C3: with required difficulty `D`, a revealed card of check value
`card.check` and `U` uncommitted foundations available, the check passes
with zero commitment iff the check value reaches `D`; when it falls short,
it can pass by committing foundations (each contributing exactly +1) iff
`D - check ≤ U`, which is what the panel's `canPassWithFoundations`
reports; and the minimum passing commitment is exactly `max 0 (D - check)`,
the panel's `foundationsNeeded`. -/
theorem checkPanel_pass_rule (card : CardState) (D U : Int) :
    (checkPassed (some card) 0 D = true ↔ D ≤ card.check) ∧
    (card.check < D →
      ((∃ c : Int, 0 ≤ c ∧ c ≤ U ∧ checkPassed (some card) c D = true) ↔
        D - card.check ≤ U)) ∧
    (card.check < D →
      (canPassWithFoundations (some card) D U = true ↔ D - card.check ≤ U)) ∧
    foundationsNeeded (some card) D = max 0 (D - card.check) ∧
    checkPassed (some card) (max 0 (D - card.check)) D = true ∧
    (∀ c : Int, 0 ≤ c → checkPassed (some card) c D = true →
      max 0 (D - card.check) ≤ c) := by
  have hb : baseCheckValue (some card) = card.check := by
    by_cases h : card.check = 0 <;> simp [baseCheckValue, jsOrInt, h]
  refine ⟨?_, ?_, ?_, ?_, ?_, ?_⟩
  · simp [checkPassed, totalCheckValue, hb]
  · intro hV
    constructor
    · rintro ⟨c, h0, hcU, hc⟩
      simp only [checkPassed, totalCheckValue, hb, ge_iff_le,
        decide_eq_true_eq] at hc
      omega
    · intro hDU
      refine ⟨D - card.check, by omega, hDU, ?_⟩
      simp only [checkPassed, totalCheckValue, hb, ge_iff_le,
        decide_eq_true_eq]
      omega
  · intro hV
    simp only [canPassWithFoundations, foundationsNeeded, hb, Option.isSome_some,
      Bool.true_and, Bool.and_eq_true, decide_eq_true_eq]
    omega
  · simp [foundationsNeeded, hb]
  · simp only [checkPassed, totalCheckValue, hb, ge_iff_le, decide_eq_true_eq]
    omega
  · intro c h0 hc
    simp only [checkPassed, totalCheckValue, hb, ge_iff_le,
      decide_eq_true_eq] at hc
    omega

/-- Witness for C3 at a concrete revealed card of check value 3, required
difficulty 5 and four available foundations. -/
theorem checkPanel_pass_rule_witness :
    foundationsNeeded (some c3Card) 5 = 2 ∧
    (canPassWithFoundations (some c3Card) 5 4 = true ↔
      (5 : Int) - c3Card.check ≤ 4) := by
  have h := checkPanel_pass_rule c3Card 5 4
  exact ⟨h.2.2.2.1.trans (by decide), h.2.2.1 (by decide)⟩

lemma drawToHandSize_hand_length (p : Player)
    (hle : p.getHandSize ≤ p.deck.length) (hz : p.hand = []) :
    (p.drawToHandSize).hand.length = p.getHandSize := by
  simp only [Player.drawToHandSize, Player.drawCards_eq, hz, List.length_nil,
    Nat.sub_zero, List.nil_append, List.length_take]
  omega

/-- C5: `processReviewPhase()` applies discard-then-draw, in that order, to
the active player: every card of the hand goes to the top of the discard
pile (hand left empty), then the hand is drawn back up to hand size, so it
holds exactly `handSize` cards whenever the deck held at least that many. -/
theorem processReviewPhase_discard_then_draw (g : GameEngine) :
    (g.processReviewPhaseE).getPlayer g.turn.activeId =
      ((g.getPlayer g.turn.activeId).discardHand).drawToHandSize ∧
    ((g.getPlayer g.turn.activeId).discardHand).hand = [] ∧
    ((g.getPlayer g.turn.activeId).discardHand).discard =
      (g.getPlayer g.turn.activeId).hand.reverse ++
        (g.getPlayer g.turn.activeId).discard ∧
    ((g.getPlayer g.turn.activeId).getHandSize ≤
        (g.getPlayer g.turn.activeId).deck.length →
      (((g.getPlayer g.turn.activeId).discardHand).drawToHandSize).hand.length
        = (g.getPlayer g.turn.activeId).getHandSize) := by
  refine ⟨?_, ?_, ?_, ?_⟩
  · unfold GameEngine.processReviewPhaseE updateActivePlayer GameEngine.getPlayer
    by_cases h : g.turn.activeId = 1 <;> simp [h]
  · rw [Player.discardHand_eq]
  · rw [Player.discardHand_eq]
  · intro hle
    have hz : ((g.getPlayer g.turn.activeId).discardHand).hand = [] := by
      rw [Player.discardHand_eq]
    have hgs : ((g.getPlayer g.turn.activeId).discardHand).getHandSize
        = (g.getPlayer g.turn.activeId).getHandSize := by
      rw [Player.discardHand_eq]
      rfl
    have hdl : ((g.getPlayer g.turn.activeId).discardHand).deck
        = (g.getPlayer g.turn.activeId).deck := by
      rw [Player.discardHand_eq]
    have hmain := drawToHandSize_hand_length
      ((g.getPlayer g.turn.activeId).discardHand)
      (by rw [hgs, hdl]; exact hle) hz
    rw [hmain, hgs]

/-- Witness for C5 at a concrete engine whose active player has hand size 2
and a three-card deck. -/
theorem processReviewPhase_discard_then_draw_witness :
    ((c5Engine.getPlayer c5Engine.turn.activeId).discardHand.drawToHandSize).hand.length
      = 2 := by
  have h := (processReviewPhase_discard_then_draw c5Engine).2.2.2 (by decide)
  exact h.trans (by decide)

/-- C7: after `endTurn()`, a player whose character health is at or below
zero loses: the status becomes Finished and the other player is recorded as
winner; when both characters are down at the same check, player 2 is
declared the winner (player 1 is tested first). -/
theorem endTurn_win_conditions (g : GameEngine) (c1 c2 : CharacterState)
    (h1 : g.player1.character = some c1) (h2 : g.player2.character = some c2) :
    (c1.currentHealth ≤ 0 →
      g.endTurnE.status = .finished ∧ g.endTurnE.winner = some 2) ∧
    (0 < c1.currentHealth → c2.currentHealth ≤ 0 →
      g.endTurnE.status = .finished ∧ g.endTurnE.winner = some 1) ∧
    (c1.currentHealth ≤ 0 ∧ c2.currentHealth ≤ 0 →
      g.endTurnE.winner = some 2) := by
  have hd1 : g.player1.isDefeated = decide (c1.currentHealth ≤ 0) := by
    simp [Player.isDefeated, h1, CharacterState.isDefeated]
  have hd2 : g.player2.isDefeated = decide (c2.currentHealth ≤ 0) := by
    simp [Player.isDefeated, h2, CharacterState.isDefeated]
  refine ⟨fun hc => ?_, fun hp hc => ?_, fun hboth => ?_⟩ <;>
    unfold GameEngine.endTurnE GameEngine.checkWinConditions
  · simp [hd1, hc]
  · simp [hd1, hd2, hc, not_le.mpr hp]
  · simp [hd1, hboth.1]

/-- Witness for C7 at a concrete engine in which both characters are at or
below zero health: player 2 wins. -/
theorem endTurn_win_conditions_witness :
    c7Engine.endTurnE.status = .finished ∧ c7Engine.endTurnE.winner = some 2 :=
  (endTurn_win_conditions c7Engine ⟨6, 20, 0⟩ ⟨6, 20, -2⟩ rfl rfl).1 (by decide)

/-- C10: with no character set, `getHandSize()` falls back to the default 6
while `getHealth`/`getMaxHealth` fall back to 0, so `startGame()` on a
characterless game draws 6 cards into each player's hand and
`drawToHandSize()` tops the hand up to 6. -/
theorem characterless_defaults (p : Player) (g : GameEngine)
    (hp : p.character = none) (h1 : g.player1.character = none)
    (h2 : g.player2.character = none) (hs : g.status = .setup) :
    p.getHandSize = 6 ∧ p.getHealth = 0 ∧ p.getMaxHealth = 0 ∧
    g.startGame.player1.hand = g.player1.hand ++ g.player1.deck.take 6 ∧
    g.startGame.player2.hand = g.player2.hand ++ g.player2.deck.take 6 ∧
    p.drawToHandSize.hand = p.hand ++ p.deck.take (6 - p.hand.length) := by
  have hhs : ∀ q : Player, q.character = none → q.getHandSize = 6 := by
    intro q hq
    simp [Player.getHandSize, hq, jsOrNat]
  refine ⟨hhs p hp, ?_, ?_, ?_, ?_, ?_⟩
  · simp [Player.getHealth, hp, jsOrInt]
  · simp [Player.getMaxHealth, hp, jsOrInt]
  · unfold GameEngine.startGame
    rw [if_neg (by simp [hs])]
    simp [Player.drawCards_eq, hhs _ h1]
  · unfold GameEngine.startGame
    rw [if_neg (by simp [hs])]
    simp [Player.drawCards_eq, hhs _ h2]
  · simp [Player.drawToHandSize, Player.drawCards_eq, hhs p hp]

/-- Witness for C10 at a concrete characterless engine with seven-card
decks. -/
theorem characterless_defaults_witness :
    c10Engine.startGame.player1.hand = [0, 1, 2, 3, 4, 5] ∧
    c10Engine.player1.getHandSize = 6 := by
  have h := characterless_defaults c10Engine.player1 c10Engine rfl rfl rfl rfl
  exact ⟨h.2.2.2.1.trans (by decide), h.1⟩

/-- C1 (code evaluation): no operation ever assigns
`progressiveDifficulty`. A freshly constructed card dropped into a card
pool already holding one card keeps progressive difficulty 0, and the
required difficulty the drop handler computes for it is its base
difficulty 4 — not 4 + 1, as the claim demands for 0-indexed pool
position 1. `performCheck` likewise never writes any card state. -/
theorem progressiveDifficulty_never_assigned :
    poolDrop [1] [0] c1CardSt 1 =
      some { hand := [], cardPool := [0, 1], requiredDifficulty := 4 } ∧
    (c1CardSt 1).baseDifficulty = 4 ∧
    (c1CardSt 1).progressiveDifficulty = 0 ∧
    (∀ (g : GameEngine) (pid : Nat) (d : Int),
      (g.performCheck pid d).1.cardSt = g.cardSt) ∧
    (4 : Int) ≠ 4 + 1 := by
  refine ⟨by decide, rfl, rfl, ?_, by decide⟩
  intro g pid d
  unfold GameEngine.performCheck GameEngine.setPlayer
  dsimp only
  split <;> rfl

/-! ### Lemmas for the commit-foundations loop -/

lemma commitCard_getPlayer (g : GameEngine) (pid f q : Nat) :
    (commitCardInPlayArea g pid f).getPlayer q = g.getPlayer q := by
  have h := commitCard_players g pid f
  unfold GameEngine.getPlayer
  rw [h.1, h.2]

lemma commitCard_cardSt_mono (g : GameEngine) (pid f x : Nat)
    (h : (g.cardSt x).committed = true) :
    ((commitCardInPlayArea g pid f).cardSt x).committed = true := by
  unfold commitCardInPlayArea
  split
  · dsimp only
    by_cases hx : x = f <;> simp [hx, CardState.commit, h]
  · exact h

lemma commitCard_committed_self (g : GameEngine) (pid f : Nat)
    (h : f ∈ (g.getPlayer pid).playArea) :
    ((commitCardInPlayArea g pid f).cardSt f).committed = true := by
  unfold commitCardInPlayArea
  by_cases hb : (g.cardSt f).committed = false
  · rw [if_pos ⟨h, hb⟩]
    simp [CardState.commit]
  · rw [if_neg (fun hc => hb hc.2)]
    simpa using hb

lemma commitLoop_mono (pid : Nat) : ∀ (fs : List Nat) (g : GameEngine)
    (x : Nat), (g.cardSt x).committed = true →
    ((commitLoop pid g fs).1.cardSt x).committed = true
  | [], _, _, h => h
  | f :: fs, g, x, h => by
    unfold commitLoop
    split
    · exact commitLoop_mono pid fs _ x (commitCard_cardSt_mono g pid f x h)
    · exact h

lemma commitLoop_success_iff (pid : Nat) : ∀ (fs : List Nat) (g : GameEngine),
    ((commitLoop pid g fs).2 = true ↔
      ∀ f ∈ fs, f ∈ (g.getPlayer pid).playArea)
  | [], g => by simp [commitLoop]
  | f :: fs, g => by
    unfold commitLoop
    split
    · next hmem =>
      rw [commitLoop_success_iff pid fs (commitCardInPlayArea g pid f)]
      simp [commitCard_getPlayer, hmem]
    · next hmem =>
      simp only [List.mem_cons, Bool.false_eq_true, false_iff, not_forall]
      exact ⟨f, ⟨Or.inl rfl, hmem⟩⟩

lemma commitLoop_commits (pid : Nat) : ∀ (fs : List Nat) (g : GameEngine),
    (∀ f ∈ fs, f ∈ (g.getPlayer pid).playArea) →
    ∀ f ∈ fs, ((commitLoop pid g fs).1.cardSt f).committed = true
  | [], _, _, f, hf => by simp at hf
  | f' :: fs, g, hall, f, hf => by
    unfold commitLoop
    have hmem : f' ∈ (g.getPlayer pid).playArea := hall f' (by simp)
    rw [if_pos hmem]
    rcases List.mem_cons.mp hf with rfl | hf'
    · exact commitLoop_mono pid fs _ f (commitCard_committed_self g pid f hmem)
    · apply commitLoop_commits pid fs _ ?_ f hf'
      intro x hx
      rw [commitCard_getPlayer]
      exact hall x (List.mem_cons_of_mem _ hx)

lemma commitLoop_no_rollback (pid : Nat) : ∀ (pre : List Nat)
    (g : GameEngine) (bad : Nat) (rest : List Nat),
    (∀ f ∈ pre, f ∈ (g.getPlayer pid).playArea) →
    bad ∉ (g.getPlayer pid).playArea →
    (commitLoop pid g (pre ++ bad :: rest)).2 = false ∧
    ∀ f ∈ pre, ((commitLoop pid g (pre ++ bad :: rest)).1.cardSt f).committed = true
  | [], g, bad, rest, _, hbad => by
    simp only [List.nil_append]
    unfold commitLoop
    rw [if_neg hbad]
    exact ⟨rfl, by simp⟩
  | f' :: pre, g, bad, rest, hall, hbad => by
    have hmem : f' ∈ (g.getPlayer pid).playArea := hall f' (by simp)
    have hrec := commitLoop_no_rollback pid pre (commitCardInPlayArea g pid f')
      bad rest
      (fun x hx => by
        rw [commitCard_getPlayer]
        exact hall x (List.mem_cons_of_mem _ hx))
      (by rw [commitCard_getPlayer]; exact hbad)
    simp only [List.cons_append]
    unfold commitLoop
    rw [if_pos hmem]
    refine ⟨hrec.1, ?_⟩
    intro f hf
    rcases List.mem_cons.mp hf with rfl | hf'
    · exact commitLoop_mono pid (pre ++ bad :: rest) _ f
        (commitCard_committed_self g pid f hmem)
    · exact hrec.2 f hf'

/-- C6 counterexample: `commitFoundations` succeeds (returns true) although
the listed foundation, while present in the play area, is already committed
(so not present *uncommitted*), refuting the claim's precondition as
stated. -/
theorem commitFoundations_committed_counterexample :
    (c6Engine.commitFoundations 1 [7]).2 = true ∧
    7 ∈ c6Engine.player1.playArea ∧
    (c6Engine.cardSt 7).committed = true := by
  exact ⟨rfl, by decide, rfl⟩

/-- C6 (amended): `commitFoundations(playerId, foundations)` returns true
iff every listed card is present in that player's play area (whether or not
it is already committed — uncommittedness is not checked); on success every
listed foundation is committed afterwards; the zones are never modified;
and at the first absent foundation it returns false immediately while the
foundations processed earlier in the same call remain committed (no
rollback). -/
theorem commitFoundations_spec (g : GameEngine) (pid : Nat) (fs : List Nat) :
    ((g.commitFoundations pid fs).2 = true ↔
      ∀ f ∈ fs, f ∈ (g.getPlayer pid).playArea) ∧
    ((g.commitFoundations pid fs).2 = true →
      ∀ f ∈ fs, ((g.commitFoundations pid fs).1.cardSt f).committed = true) ∧
    (g.commitFoundations pid fs).1.player1 = g.player1 ∧
    (g.commitFoundations pid fs).1.player2 = g.player2 ∧
    (∀ pre bad rest, fs = pre ++ bad :: rest →
      (∀ f ∈ pre, f ∈ (g.getPlayer pid).playArea) →
      bad ∉ (g.getPlayer pid).playArea →
      (g.commitFoundations pid fs).2 = false ∧
      ∀ f ∈ pre, ((g.commitFoundations pid fs).1.cardSt f).committed = true) := by
  refine ⟨commitLoop_success_iff pid fs g, ?_, (commitLoop_players pid fs g).1,
    (commitLoop_players pid fs g).2, ?_⟩
  · intro hs
    exact commitLoop_commits pid fs g ((commitLoop_success_iff pid fs g).mp hs)
  · intro pre bad rest hfs hall hbad
    subst hfs
    exact commitLoop_no_rollback pid pre g bad rest hall hbad

/-- Witness for the amended C6: committing the list [3, 9] with card 3
present and card 9 absent fails but leaves card 3 committed. -/
theorem commitFoundations_spec_witness :
    (c6bEngine.commitFoundations 1 [3, 9]).2 = false ∧
    ((c6bEngine.commitFoundations 1 [3, 9]).1.cardSt 3).committed = true := by
  have h := (commitFoundations_spec c6bEngine 1 [3, 9]).2.2.2.2 [3] 9 []
    rfl (by decide) (by decide)
  exact ⟨h.1, h.2 3 (by decide)⟩

end UVS
